import Mathlib

/-!
# Verification of the feedback-widget repository

A shallow embedding of the feedback widget (`src/App.tsx`), its model-based
test harnesses (`src/App.e2e.tsx`, `cypress/integration/feedback/e2e.spec.ts`
and their variants) and the request-interception machinery
(`makeOnRequest`, `cypress/unfetch.ts`), together with theorems settling the
spec's claims about them.
-/

namespace Feedback

/-- Widget states, from `type State` in `src/App.tsx`. -/
inductive State
  | question
  | form
  | submitting
  | thanks
  | closed
  | failure
  deriving DecidableEq, Repr

/-- Widget events, from `type Event` in `src/App.tsx`.  `SUBMIT` carries the
text entered in the form's textarea. -/
inductive Event
  | GOOD
  | BAD
  | CLOSE
  | SUCCESS
  | FAILURE
  | SUBMIT (value : String)
  deriving DecidableEq, Repr

open State Event

/-- The widget's reducer, translated switch-by-switch from `feedbackReducer`
in `src/App.tsx` (lines 221-266).  The TS `case "failure": case "thanks":`
fall-through is rendered as two identical branches; every `default` branch
returns the current state. -/
def feedbackReducer : State → Event → State
  | question, e =>
    match e with
    | GOOD => thanks
    | BAD => form
    | CLOSE => closed
    | _ => question
  | form, e =>
    match e with
    | SUBMIT value => if value.length > 0 then submitting else closed
    | CLOSE => closed
    | _ => form
  | submitting, e =>
    match e with
    | SUCCESS => thanks
    | FAILURE => State.failure
    | CLOSE => closed
    | _ => submitting
  | State.failure, e =>
    match e with
    | CLOSE => closed
    | _ => State.failure
  | thanks, e =>
    match e with
    | CLOSE => closed
    | _ => thanks
  | closed, _ => closed

/-- Result of the `fetch` performed by the form's submit handler: the promise
either resolves (the `try` body continues) or rejects (the `catch` runs). -/
inductive FetchResult
  | success
  | failure
  deriving DecidableEq, Repr

/-- What one run of `FormScreen`'s `onSubmit` handler (App.tsx lines 144-162)
does, with the callbacks wired as in `Feedback` (lines 283-290): it always
sends `SUBMIT value`; then, only when `response.value.length > 0`, it performs
the fetch and sends `SUCCESS` if the fetch resolved or `FAILURE` if it
rejected. -/
structure SubmitOutcome where
  sentEvents : List Event
  didFetch : Bool
  deriving DecidableEq, Repr

/-- The form submit handler of `FormScreen`, composed with the `Feedback`
component's wiring of `onSubmit`/`onSuccess`/`onFailure` to reducer events. -/
def formScreenSubmit (value : String) (fr : FetchResult) : SubmitOutcome :=
  if value.length > 0 then
    match fr with
    | FetchResult.success => ⟨[SUBMIT value, SUCCESS], true⟩
    | FetchResult.failure => ⟨[SUBMIT value, FAILURE], true⟩
  else ⟨[SUBMIT value], false⟩

/-- Run a list of events through the reducer, as React's `useReducer` does. -/
def runEvents (s : State) (es : List Event) : State :=
  es.foldl feedbackReducer s

/-- C1: The widget's state function follows the stated progression:
from "question", GOOD yields "thanks" and BAD yields "form"; from "form",
SUBMIT with non-empty value yields "submitting"; from "submitting", SUCCESS
yields "thanks" and FAILURE yields "failure"; and from "thanks" and from
"failure", CLOSE yields "closed". -/
theorem feedbackReducer_progression :
    feedbackReducer question GOOD = thanks ∧
    feedbackReducer question BAD = form ∧
    (∀ value : String, value.length > 0 →
      feedbackReducer form (SUBMIT value) = submitting) ∧
    feedbackReducer submitting SUCCESS = thanks ∧
    feedbackReducer submitting FAILURE = failure ∧
    feedbackReducer thanks CLOSE = closed ∧
    feedbackReducer failure CLOSE = closed := by
  refine ⟨rfl, rfl, ?_, rfl, rfl, rfl, rfl⟩
  intro value h
  simp [feedbackReducer, h]

/-- Witness for C1: the SUBMIT conjunct applied at the concrete value "x". -/
theorem feedbackReducer_progression_witness :
    feedbackReducer form (SUBMIT "x") = submitting :=
  feedbackReducer_progression.2.2.1 "x" (by decide)

/-- C6: Submitting free-text feedback performs the network call exactly
when text was entered: the submit handler issues a fetch if and only if the
submitted response value is a non-empty string. -/
theorem formScreenSubmit_fetch_iff :
    ∀ (value : String) (fr : FetchResult),
      (formScreenSubmit value fr).didFetch = true ↔ value.length > 0 := by
  intro value fr
  by_cases h : value.length > 0
  · cases fr <;> simp [formScreenSubmit, h]
  · simp [formScreenSubmit, h]

/-- C7: The outcome screen reflects the network result: starting from the
"form" state with a non-empty value, when the fetch resolves the handler's
events drive the widget through "submitting" to "thanks", and when the fetch
rejects they drive it through "submitting" to "failure". -/
theorem formScreenSubmit_outcome (value : String) (h : value.length > 0) :
    runEvents form (formScreenSubmit value FetchResult.success).sentEvents = thanks ∧
    runEvents form (formScreenSubmit value FetchResult.failure).sentEvents = failure := by
  constructor <;> simp [runEvents, formScreenSubmit, feedbackReducer, h]

/-- Witness for C7 at the concrete value "x". -/
theorem formScreenSubmit_outcome_witness :
    runEvents form (formScreenSubmit "x" FetchResult.success).sentEvents = thanks ∧
    runEvents form (formScreenSubmit "x" FetchResult.failure).sentEvents = failure :=
  formScreenSubmit_outcome "x" (by decide)

/-! ## The test model's state machine

The `feedbackMachine` used by `createModel` in
`cypress/integration/feedback/e2e.spec.ts` (lines 96-196) and
`src/App.e2e.tsx` (lines 66-151); the two are identical. -/

/-- States of the test model's `feedbackMachine`. -/
inductive TState
  | question
  | form
  | submitting
  | thanks
  | closed
  | failure
  deriving DecidableEq, Repr

/-- Events of the test model (`FeedbackEvent` in e2e.spec.ts). -/
inductive TEvent
  | CLICK_GOOD
  | CLICK_BAD
  | CLOSE
  | ESC
  | SUCCESS
  | FAILURE
  | SUBMIT (value : String)
  deriving DecidableEq, Repr

/-- JS whitespace characters stripped by `String.prototype.trim` (the ones
expressible in ASCII plus NBSP; the counterexamples below use only ' '). -/
def jsWhitespaceChar (c : Char) : Bool :=
  c = ' ' || c = '\t' || c = '\n' || c = '\r' || c = '\x0b' || c = '\x0c' ||
    c = '\u00A0'

/-- JS `String.prototype.trim`: strip whitespace from both ends. -/
def jsTrim (s : String) : String :=
  ⟨((s.data.dropWhile jsWhitespaceChar).reverse.dropWhile jsWhitespaceChar).reverse⟩

/-- One transition of the test model's `feedbackMachine`, translated from the
machine config in e2e.spec.ts lines 96-196 (same as App.e2e.tsx lines 66-151).
`none` means the machine has no transition for that event in that state
(xstate ignores such events).  State-level handlers take precedence over the
machine-level ESC-to-closed handler, which no state overrides, so ESC
maps every state to "closed".  The form state's SUBMIT transition targets
"submitting" only under the guard `e.value.trim().length > 0`, else the
unguarded fallback targets "closed". -/
def feedbackMachineStep : TState → TEvent → Option TState
  | TState.question, TEvent.CLICK_GOOD => some TState.thanks
  | TState.question, TEvent.CLICK_BAD => some TState.form
  | TState.question, TEvent.CLOSE => some TState.closed
  | TState.form, TEvent.SUBMIT v =>
    some (if (jsTrim v).length > 0 then TState.submitting else TState.closed)
  | TState.form, TEvent.CLOSE => some TState.closed
  | TState.submitting, TEvent.SUCCESS => some TState.thanks
  | TState.submitting, TEvent.FAILURE => some TState.failure
  | TState.failure, TEvent.CLOSE => some TState.closed
  | TState.thanks, TEvent.CLOSE => some TState.closed
  | _, TEvent.ESC => some TState.closed
  | _, _ => none

/-- The evident correspondence between widget states and test-machine
states (the two state sets carry the same six names). -/
def toTState : State → TState
  | question => TState.question
  | form => TState.form
  | submitting => TState.submitting
  | thanks => TState.thanks
  | closed => TState.closed
  | State.failure => TState.failure

/-- Formalisation of C2 at one value: the test machine's transition out of
"form" on `SUBMIT v` agrees with the widget reducer's transition out of
"form" on the same value. -/
def formSubmitAgrees (v : String) : Prop :=
  feedbackMachineStep TState.form (TEvent.SUBMIT v) =
    some (toTState (feedbackReducer form (SUBMIT v)))

/-- C2 (counterexample): at the whitespace-only value " " the test machine
transitions "form" → "closed" (since " ".trim().length = 0) while the widget
reducer transitions "form" → "submitting" (since " ".length = 1 > 0), so the
claim that they agree for every SUBMIT value string is false. -/
theorem formSubmit_disagrees_at_space :
    feedbackMachineStep TState.form (TEvent.SUBMIT " ") = some TState.closed ∧
    feedbackReducer form (SUBMIT " ") = submitting ∧
    ¬ formSubmitAgrees " " := by
  refine ⟨by decide, by decide, ?_⟩
  intro h
  simp only [formSubmitAgrees] at h
  exact absurd h (by decide)

/-- C2 (amended): the test machine's transition out of "form" agrees with the
widget reducer's for every SUBMIT value on which trimmed non-emptiness
coincides with non-emptiness — in particular on both of the test model's
SUBMIT cases, "something" and "" (they can differ only on non-empty
all-whitespace values, as the counterexample shows). -/
theorem formSubmit_agrees_of_trim_faithful (v : String)
    (h : (jsTrim v).length > 0 ↔ v.length > 0) :
    formSubmitAgrees v := by
  by_cases hv : v.length > 0
  · have ht : (jsTrim v).length > 0 := h.mpr hv
    simp [formSubmitAgrees, feedbackMachineStep, feedbackReducer, toTState, hv, ht]
  · have ht : ¬ (jsTrim v).length > 0 := fun hh => hv (h.mp hh)
    simp [formSubmitAgrees, feedbackMachineStep, feedbackReducer, toTState, hv, ht]

/-- Witness for the amended C2 at the test model's case "something". -/
theorem formSubmit_agrees_witness : formSubmitAgrees "something" :=
  formSubmit_agrees_of_trim_faithful "something" (by decide)

/-! ## The test harnesses' plan/path iteration (C3)

Both puppeteer harnesses (`App.e2e.tsx`, `part_001`) and the cypress
`e2e.spec.ts` harness iterate every plan of `testModel.getSimplePathPlans()`
and every path of each plan, registering one test per (planIndex, pathIndex).
The cypress variant in `part_000` instead iterates `testPlans.slice(0, 2)`,
so only the first two plans get tests. -/

/-- The concrete events the test model can dispatch: the event map passed to
`withEvents` in e2e.spec.ts lines 198-250 (App.e2e.tsx lines 153-184), where
SUBMIT has the two cases value = "something" and value = "". -/
def modelEvents : List TEvent :=
  [TEvent.CLICK_GOOD, TEvent.CLICK_BAD, TEvent.CLOSE, TEvent.ESC,
   TEvent.SUCCESS, TEvent.FAILURE, TEvent.SUBMIT "something", TEvent.SUBMIT ""]

/-- The labelled successors of a test-machine state under the model's
events. -/
def machineSucc (s : TState) : List (TEvent × TState) :=
  modelEvents.filterMap (fun e => (feedbackMachineStep s e).map (fun t => (e, t)))

/-- Modelled from the spec: the plans come from `@xstate/test`'s
`testModel.getSimplePathPlans()`, whose implementation is not part of this
repository.  Per the spec ("a test generated by exhaustively walking paths
through a finite-state description of expected UI behavior") it yields, for
each reachable machine state, one plan whose paths are the simple
(no-repeated-state) paths from the initial state to it.  `simplePathsAux`
enumerates, by depth-first search, every simple path out of `cur` given the
states already `visited`; `fuel` bounds the depth and any value at least the
number of states is exact. -/
def simplePathsAux : Nat → List TState → TState → List (TState × List TEvent)
  | 0, _, cur => [(cur, [])]
  | Nat.succ n, visited, cur =>
    (cur, []) ::
      (machineSucc cur).flatMap (fun et =>
        if et.2 = cur ∨ et.2 ∈ visited then []
        else (simplePathsAux n (cur :: visited) et.2).map
          (fun p => (p.1, et.1 :: p.2)))

/-- All simple paths of the test machine starting at its initial state
"question", as (endpoint, event sequence) pairs. -/
def allSimplePaths : List (TState × List TEvent) :=
  simplePathsAux 6 [] TState.question

/-- The event sequences of the simple paths from "question" to `t`. -/
def pathsTo (t : TState) : List (List TEvent) :=
  (allSimplePaths.filter (fun p => p.1 = t)).map (fun p => p.2)

/-- A test plan: a target state and the paths that reach it, mirroring the
`plan.paths` shape the harnesses iterate. -/
structure TestPlan where
  target : TState
  paths : List (List TEvent)
  deriving DecidableEq, Repr

/-- Placeholder plan used as the default for out-of-range indexing. -/
def defaultPlan : TestPlan := ⟨TState.question, []⟩

/-- Fixed enumeration of the test machine's states. -/
def allTStates : List TState :=
  [TState.question, TState.form, TState.submitting, TState.thanks,
   TState.closed, TState.failure]

/-- Modelled from the spec: `testModel.getSimplePathPlans()` — one plan per
reachable state of the test machine, carrying that state's simple paths. -/
def getSimplePathPlans : List TestPlan :=
  (allTStates.filter (fun t => !(pathsTo t).isEmpty)).map
    (fun t => ⟨t, pathsTo t⟩)

/-- The (planIndex, pathIndex) pairs for which the
`testPlans.forEach((plan, planIndex) => ... plan.paths.forEach((path,
pathIndex) => it(...)))` loops register a test, starting the outer index at
`k` (e2e.spec.ts lines 252-284, part_001 lines 275-310): one `it` block per
plan index and path index. -/
def registeredTestsFrom (k : Nat) : List TestPlan → List (Nat × Nat)
  | [] => []
  | p :: rest =>
    (List.range p.paths.length).map (fun j => (k, j)) ++
      registeredTestsFrom (k + 1) rest

/-- The tests registered by the full-iteration harnesses. -/
def registeredTests (plans : List TestPlan) : List (Nat × Nat) :=
  registeredTestsFrom 0 plans

/-- The tests registered by the `part_000` cypress variant, whose outer loop
is `testPlans.slice(0, 2).forEach` (part_000 lines 222-255). -/
def registeredTestsSliced (plans : List TestPlan) : List (Nat × Nat) :=
  registeredTests (plans.take 2)

/-- Every registered pair's plan index is at least the starting index. -/
theorem le_of_mem_registeredTestsFrom :
    ∀ (plans : List TestPlan) (k : Nat) (ij : Nat × Nat),
      ij ∈ registeredTestsFrom k plans → k ≤ ij.1 := by
  intro plans
  induction plans with
  | nil => intro k ij h; simp [registeredTestsFrom] at h
  | cons p rest ih =>
    intro k ij h
    rw [registeredTestsFrom, List.mem_append] at h
    rcases h with h | h
    · obtain ⟨j, _, rfl⟩ := List.mem_map.mp h
      exact Nat.le_refl k
    · exact Nat.le_of_succ_le (ih (k + 1) ij h)

/-- Each valid (planIndex, pathIndex) pair is registered by the forEach
loops, for any starting index. -/
theorem mem_registeredTestsFrom :
    ∀ (plans : List TestPlan) (k i j : Nat), i < plans.length →
      j < (plans.getD i defaultPlan).paths.length →
      (k + i, j) ∈ registeredTestsFrom k plans := by
  intro plans
  induction plans with
  | nil => intro k i j hi _; exact absurd hi (by simp)
  | cons p rest ih =>
    intro k i j hi hj
    rw [registeredTestsFrom, List.mem_append]
    cases i with
    | zero =>
      left
      have hj' : j < p.paths.length := by simpa [List.getD] using hj
      exact List.mem_map.mpr ⟨j, List.mem_range.mpr hj', rfl⟩
    | succ m =>
      right
      have h := ih (k + 1) m j (by simpa using hi) (by simpa [List.getD] using hj)
      have he : k + (m + 1) = k + 1 + m := by omega
      rw [he]
      exact h

/-- The forEach loops never register the same (planIndex, pathIndex) twice. -/
theorem nodup_registeredTestsFrom :
    ∀ (plans : List TestPlan) (k : Nat), (registeredTestsFrom k plans).Nodup := by
  intro plans
  induction plans with
  | nil => intro k; simp [registeredTestsFrom]
  | cons p rest ih =>
    intro k
    rw [registeredTestsFrom]
    refine List.Nodup.append ?_ (ih (k + 1)) ?_
    · exact (List.nodup_range _).map (fun a b hab => by simpa using hab)
    · intro ij h1 h2
      obtain ⟨j', _, rfl⟩ := List.mem_map.mp h1
      have hle := le_of_mem_registeredTestsFrom rest (k + 1) _ h2
      exact absurd (hle : k + 1 ≤ k) (by omega)

/-- Indexing the first two plans commutes with `take 2`. -/
theorem getD_take_two (plans : List TestPlan) (i : Nat) (h2 : i < 2)
    (hi : i < plans.length) :
    (plans.take 2).getD i defaultPlan = plans.getD i defaultPlan := by
  match plans, i with
  | p :: _, 0 => rfl
  | p :: q :: _, 1 => rfl
  | [p], 1 => simp at hi
  | _, Nat.succ (Nat.succ m) => omega

/-- C3 (amended): the puppeteer harness (App.e2e.tsx, part_001) and the
cypress e2e.spec.ts harness register one test for every plan returned by
getSimplePathPlans and every path of that plan, and never register a
(plan, path) pair twice; the part_000 cypress variant, whose outer loop is
`testPlans.slice(0, 2).forEach`, does so only for the plans at indices 0
and 1 (the counterexample shows the later plans get no test there). -/
theorem registeredTests_cover (plans : List TestPlan) (i j : Nat)
    (hi : i < plans.length)
    (hj : j < (plans.getD i defaultPlan).paths.length) :
    (i, j) ∈ registeredTests plans ∧
    (registeredTests plans).Nodup ∧
    (i < 2 → (i, j) ∈ registeredTestsSliced plans) := by
  refine ⟨?_, nodup_registeredTestsFrom plans 0, ?_⟩
  · simpa [registeredTests] using mem_registeredTestsFrom plans 0 i j hi hj
  · intro h2
    have hlen : i < (plans.take 2).length := by
      rw [List.length_take]
      omega
    have hj' : j < ((plans.take 2).getD i defaultPlan).paths.length := by
      rw [getD_take_two plans i h2 hi]
      exact hj
    simpa [registeredTestsSliced, registeredTests] using
      mem_registeredTestsFrom (plans.take 2) 0 i j hlen hj'

/-- Witness for the amended C3 at the modelled plans, plan 0, path 0. -/
theorem registeredTests_cover_witness :
    ((0, 0) : Nat × Nat) ∈ registeredTests getSimplePathPlans ∧
    (registeredTests getSimplePathPlans).Nodup ∧
    (0 < 2 → ((0, 0) : Nat × Nat) ∈ registeredTestsSliced getSimplePathPlans) :=
  registeredTests_cover getSimplePathPlans 0 0 (by decide) (by decide)

/-- C3 (counterexample): with the modelled plans of the actual test machine
there are six plans, the plan at index 2 has at least one path, yet the
part_000 harness (which iterates `testPlans.slice(0, 2)`) registers no test
for (planIndex, pathIndex) = (2, 0).  So the claim is false of the part_000
variant, which the claim's sources include. -/
theorem registeredTestsSliced_misses_plan :
    getSimplePathPlans.length = 6 ∧
    0 < (getSimplePathPlans.getD 2 defaultPlan).paths.length ∧
    (2, 0) ∉ registeredTestsSliced getSimplePathPlans := by
  refine ⟨by decide, by decide, ?_⟩
  intro hmem
  have h2 : ((2 : Nat), (0 : Nat)) ∈
      registeredTestsFrom 0 (getSimplePathPlans.take 2) := hmem
  exact absurd h2 (by decide)

/-! ## The request interceptor (C4, C5) -/

/-- Whether `p` occurs as a contiguous substring of the second list: the
embedding of a regular-expression test such as `/foobar/.test(url)` for a
literal pattern. -/
def containsL (p : List Char) : List Char → Bool
  | [] => p.isEmpty
  | c :: rest => p.isPrefixOf (c :: rest) || containsL p rest

/-- The numeric value of a decimal digit character. -/
def digitVal (c : Char) : Nat := c.toNat - '0'.toNat

/-- Worker for `digitRuns`: scans the characters, accumulating the value of
the current digit run (if inside one). -/
def digitRunsGo : List Char → Option Nat → List Nat
  | [], none => []
  | [], some n => [n]
  | c :: cs, none =>
    if c.isDigit then digitRunsGo cs (some (digitVal c)) else digitRunsGo cs none
  | c :: cs, some n =>
    if c.isDigit then digitRunsGo cs (some (n * 10 + digitVal c))
    else n :: digitRunsGo cs none

/-- All maximal runs of decimal digits in a string, each parsed as a number:
the embedding of the JS idiom matching all digit groups in the frame URL and
mapping them through Number. -/
def digitRuns (s : String) : List Nat := digitRunsGo s.data none

/-- The three ways puppeteer lets an interceptor settle a request:
`respond` with a canned response, `abort` (fail) it, or let it go through. -/
inductive ReqAction
  | respond
  | abort
  | cont
  deriving DecidableEq, Repr

/-- The data `makeOnRequest` reads off an intercepted request: its URL, its
method, and the URL of the frame that issued it. -/
structure InterceptedRequest where
  url : String
  method : String
  frameUrl : String
  deriving DecidableEq, Repr

/-- The puppeteer request interceptor `makeOnRequest` (src/App.e2e.tsx lines
12-48, documented copy in part_001 lines 95-134), after its buffer-draining
loop (modelled separately as `LoopStep`): the decision taken for one request
together with the updated failure pattern (the JS shift() mutates
failurePattern[planIndex][pathIndex]).  The JS destructuring drops the first
digit run of the frame URL (the port) and reads the next two as pathIndex and
planIndex.  `none` models a thrown TypeError: indexing with a missing or
out-of-range index yields undefined, on which shift() throws. -/
def makeOnRequest (fp : List (List (List String)))
    (req : InterceptedRequest) : Option (ReqAction × List (List (List String))) :=
  if containsL "foobar".data req.url.data then
    if req.method = "OPTIONS" then some (ReqAction.respond, fp)
    else
      match digitRuns req.frameUrl with
      | _ :: pathIndex :: planIndex :: _ =>
        match fp.get? planIndex with
        | none => none
        | some plan =>
          match plan.get? pathIndex with
          | none => none
          | some outcomes =>
            let fp2 := fp.set planIndex (plan.set pathIndex outcomes.tail)
            if outcomes.head? = some "FAILURE" then some (ReqAction.abort, fp2)
            else some (ReqAction.cont, fp2)
      | _ => none
  else some (ReqAction.cont, fp)

/-- The cypress fetch polyfill wrapper (cypress/unfetch.ts), after its
buffer-draining loop (same loop as `makeOnRequest`, modelled as `LoopStep`):
it throws Error("500") iff the URL matches /FAILURE/, else it delegates to
unfetch. -/
def unfetchFetch (url : String) : Except String Unit :=
  if containsL "FAILURE".data url.data then Except.error "500" else Except.ok ()

/-- C4: for every intercepted request whose URL matches /foobar/ and whose
method is not OPTIONS (and whose frame URL carries the plan and path indices
into the failure pattern, as the harness arranges), `makeOnRequest` aborts
the request iff the next outcome shifted from
failurePattern[planIndex][pathIndex] equals "FAILURE" and otherwise continues
it; and the cypress fetch wrapper throws iff the URL matches /FAILURE/. -/
theorem makeOnRequest_abort_iff (fp : List (List (List String)))
    (req : InterceptedRequest) (r0 pathIndex planIndex : Nat) (rest : List Nat)
    (plan : List (List String)) (outcomes : List String)
    (hurl : containsL "foobar".data req.url.data = true)
    (hmethod : req.method ≠ "OPTIONS")
    (hruns : digitRuns req.frameUrl = r0 :: pathIndex :: planIndex :: rest)
    (hplan : fp.get? planIndex = some plan)
    (houtcomes : plan.get? pathIndex = some outcomes) :
    ((makeOnRequest fp req).map Prod.fst = some ReqAction.abort ↔
      outcomes.head? = some "FAILURE") ∧
    (outcomes.head? ≠ some "FAILURE" →
      (makeOnRequest fp req).map Prod.fst = some ReqAction.cont) ∧
    (∀ url : String,
      (∃ e, unfetchFetch url = Except.error e) ↔
        containsL "FAILURE".data url.data = true) := by
  have hbody : makeOnRequest fp req =
      (if outcomes.head? = some "FAILURE" then
        some (ReqAction.abort, fp.set planIndex (plan.set pathIndex outcomes.tail))
      else
        some (ReqAction.cont, fp.set planIndex (plan.set pathIndex outcomes.tail))) := by
    rw [makeOnRequest, if_pos hurl, if_neg hmethod, hruns]
    rw [List.get?_eq_getElem?] at hplan houtcomes
    simp [hplan, houtcomes]
  refine ⟨?_, ?_, ?_⟩
  · by_cases h : outcomes.head? = some "FAILURE" <;>
      simp [hbody, h]
  · intro h
    simp [hbody, h]
  · intro url
    constructor
    · intro ⟨e, he⟩
      by_contra hc
      simp only [Bool.not_eq_true] at hc
      simp [unfetchFetch, hc] at he
    · intro hc
      exact ⟨"500", by simp [unfetchFetch, hc]⟩

/-- Witness for C4: a concrete aborted request.  The failure pattern holds
one outcome list ["FAILURE"] for plan 0, path 0; the request URL contains
"foobar", the method is GET, and the frame URL carries pathIndex=0 and
planIndex=0 after the port 7777. -/
theorem makeOnRequest_abort_iff_witness :
    (makeOnRequest [[["FAILURE"]]]
        ⟨"http://localhost:7777/?&foobar=zoo", "GET",
          "http://localhost:7777?pathIndex=0&planIndex=0&outcomes=FAILURE"⟩).map
      Prod.fst = some ReqAction.abort :=
  (makeOnRequest_abort_iff [[["FAILURE"]]]
      ⟨"http://localhost:7777/?&foobar=zoo", "GET",
        "http://localhost:7777?pathIndex=0&planIndex=0&outcomes=FAILURE"⟩
      7777 0 0 [] [["FAILURE"]] ["FAILURE"]
      (by decide) (by decide) (by decide) (by decide) (by decide)).1.mpr rfl

/-! ## The buffer-draining loop (C5)

Both `makeOnRequest` (src/App.e2e.tsx lines 15-23, part_001 lines 98-108) and
the cypress fetch wrapper (cypress/unfetch.ts lines 4-14) begin with the same
loop: while the buffer is non-empty, take its first deferred, await it, and
only then shift it off; only when the buffer is empty does the code go on to
answer the request. -/

/-- Program counter of the buffer-draining loop: at the loop head, suspended
awaiting the deferred currently at the front, or past the loop handling the
request. -/
inductive LoopPC
  | loopHead
  | awaiting (d : Nat)
  | handling
  deriving DecidableEq, Repr

/-- Modelled from the spec: `Deferred` comes from src/delay.ts, which is not
among the source files; per the spec it is a promise the test can later
resolve, so a deferred is modelled as a numeric token, with the set of
already-resolved tokens carried alongside the buffer. -/
structure LoopState where
  buffer : List Nat
  resolvedIds : List Nat
  pc : LoopPC
  deriving DecidableEq, Repr

/-- Small-step semantics of the buffer-draining loop, plus environment steps
for what the test does concurrently (pushing a new deferred onto the end of
the buffer, resolving a deferred).  `finishAwait` is the semantics of
`await deferred`: the interceptor resumes and shifts the head off only once
that deferred has resolved.  Pushes append, so the head the interceptor
captured stays the head until it shifts it. -/
inductive LoopStep : LoopState → LoopState → Prop
  | beginAwait (d : Nat) (rest res : List Nat) :
    LoopStep ⟨d :: rest, res, LoopPC.loopHead⟩ ⟨d :: rest, res, LoopPC.awaiting d⟩
  | finishAwait (d : Nat) (rest res : List Nat) (hres : d ∈ res) :
    LoopStep ⟨d :: rest, res, LoopPC.awaiting d⟩ ⟨rest, res, LoopPC.loopHead⟩
  | exitLoop (res : List Nat) :
    LoopStep ⟨[], res, LoopPC.loopHead⟩ ⟨[], res, LoopPC.handling⟩
  | envPush (buf res : List Nat) (pc : LoopPC) (n : Nat) :
    LoopStep ⟨buf, res, pc⟩ ⟨buf ++ [n], res, pc⟩
  | envResolve (buf res : List Nat) (pc : LoopPC) (n : Nat) :
    LoopStep ⟨buf, res, pc⟩ ⟨buf, n :: res, pc⟩

/-- C5: the interceptor delays the request until the test releases it.  For
every step: (a) control reaches the handling point only from the loop head
with an empty buffer, so the request is handled only after every deferred
that was in the buffer has resolved and been removed; (b) any deferred
removed from the buffer by the step had already resolved; (c) at the moment
the request is answered (the step entering `handling`) the buffer is
empty. -/
theorem loop_delays_until_released (s t : LoopState) (h : LoopStep s t) :
    (t.pc = LoopPC.handling → s.pc = LoopPC.handling ∨ s.buffer = []) ∧
    (∀ d, d ∈ s.buffer → d ∉ t.buffer → d ∈ s.resolvedIds) ∧
    (s.pc ≠ LoopPC.handling → t.pc = LoopPC.handling → t.buffer = []) := by
  cases h with
  | beginAwait d rest res =>
    refine ⟨fun hpc => by simp at hpc, fun d' hd' hnd' => absurd hd' hnd', ?_⟩
    intro _ hpc
    simp at hpc
  | finishAwait d rest res hres =>
    refine ⟨fun hpc => by simp at hpc, ?_, ?_⟩
    · intro d' hd' hnd'
      have : d' = d := by
        rcases List.mem_cons.mp hd' with h | h
        · exact h
        · exact absurd h hnd'
      rw [this]
      exact hres
    · intro _ hpc
      simp at hpc
  | exitLoop res =>
    exact ⟨fun _ => Or.inr rfl, fun d' hd' _ => absurd hd' (by simp), fun _ _ => rfl⟩
  | envPush buf res pc n =>
    refine ⟨fun hpc => Or.inl hpc, ?_, fun hne hpc => absurd hpc hne⟩
    intro d' hd' hnd'
    exact absurd (List.mem_append.mpr (Or.inl hd')) hnd'
  | envResolve buf res pc n =>
    exact ⟨fun hpc => Or.inl hpc, fun d' hd' hnd' => absurd hd' hnd',
      fun hne hpc => absurd hpc hne⟩

/-- Witness for C5 at the step that exits the loop and answers the request
from an empty buffer. -/
theorem loop_delays_until_released_witness :
    ((LoopState.mk [] [] LoopPC.handling).pc = LoopPC.handling →
      (LoopState.mk [] [] LoopPC.loopHead).pc = LoopPC.handling ∨
        (LoopState.mk [] [] LoopPC.loopHead).buffer = []) ∧
    (∀ d, d ∈ (LoopState.mk [] [] LoopPC.loopHead).buffer →
      d ∉ (LoopState.mk [] [] LoopPC.handling).buffer →
      d ∈ (LoopState.mk [] [] LoopPC.loopHead).resolvedIds) ∧
    ((LoopState.mk [] [] LoopPC.loopHead).pc ≠ LoopPC.handling →
      (LoopState.mk [] [] LoopPC.handling).pc = LoopPC.handling →
      (LoopState.mk [] [] LoopPC.handling).buffer = []) :=
  loop_delays_until_released _ _ (LoopStep.exitLoop [])

/-- C8: The "closed" state is absorbing: no event leaves it. -/
theorem closed_absorbing :
    ∀ e : Event, feedbackReducer closed e = closed := by
  intro e
  cases e <;> rfl

/-- C9: The widget can always be closed: from every state, CLOSE yields
"closed". -/
theorem close_always_closes :
    ∀ s : State, feedbackReducer s CLOSE = closed := by
  intro s
  cases s <;> rfl

/-- C10: Submitting the form with an empty response value closes the
widget: `feedbackReducer "form" {type: "SUBMIT", value: ""} = "closed"`. -/
theorem submit_empty_closes :
    feedbackReducer form (SUBMIT "") = closed := by
  decide

end Feedback
